import Mathlib

/-!
Verification of the code-execution sandbox of `code_executor.py`
(`CodeExecutor.validate_code` and `CodeExecutor.execute`).

The Python AST is embedded abstractly: `ast.parse` either fails with a
message or yields the nodes of `ast.walk` in walk order; the validator only
discriminates `Import` and `ImportFrom` nodes, so every other node kind is
collapsed into `nameRef` (an `ast.Name` reference, kept so that claims about
non-import references can be stated) and `other`.

`execute` interacts with the outside world (temp files, subprocess, unlink);
those interactions are embedded by passing in the outcome the world would
produce (`SpawnOutcome`, whether `os.unlink` fails) and returning, next to
the result, a trace of the observable events of the call.  A Python
exception escaping `execute` is an `Except.error`.
-/

/-- One node of `ast.walk`, as far as `validate_code` can distinguish them:
`imp names` is an `ast.Import` with its alias names (`alias.name`, the full
dotted module), `impFrom module names` is an `ast.ImportFrom`
(`node.module` is `None` for a bare relative import), `nameRef id` is an
`ast.Name` reference, and `other` is any other node kind. -/
inductive PyNode where
  | imp (names : List String)
  | impFrom (module : Option String) (names : List String)
  | nameRef (id : String)
  | other
deriving DecidableEq, Repr

/-- Outcome of `ast.parse`: a walk-ordered node list, or a `SyntaxError`
whose `str(e)` is `msg`. -/
inductive ParseResult where
  | ok (nodes : List PyNode)
  | syntaxError (msg : String)
deriving DecidableEq, Repr

/-- `startsWith l pat`: `pat` is a prefix of `l` (over characters). -/
def startsWith : List Char → List Char → Bool
  | _, [] => true
  | [], _ :: _ => false
  | a :: as, b :: bs => a = b && startsWith as bs

/-- `hasSubstr l pat`: `pat` occurs contiguously inside `l`. -/
def hasSubstr : List Char → List Char → Bool
  | [], pat => pat.isEmpty
  | c :: rest, pat => startsWith (c :: rest) pat || hasSubstr rest pat

/-- Python's `pat in s` on strings: substring containment. -/
def strContains (s pat : String) : Bool :=
  hasSubstr s.data pat.data

/-- The `CodeExecutor` instance state set up by `__init__`: the timeout in
seconds and the `dangerous_imports` denylist. -/
structure CodeExecutor where
  timeout : Nat
  dangerous_imports : List String
deriving DecidableEq, Repr

/-- The fixed denylist literal from `__init__`. -/
def fixedDenylist : List String :=
  ["os", "subprocess", "sys", "__import__", "eval", "exec",
   "open", "file", "input", "compile", "reload"]

/-- `CodeExecutor.__init__(timeout)`. -/
def CodeExecutor.init (timeout : Nat := 30) : CodeExecutor :=
  { timeout := timeout, dangerous_imports := fixedDenylist }

/-- `any(danger in m for danger in self.dangerous_imports)`. -/
def moduleBad (denylist : List String) (m : String) : Bool :=
  denylist.any fun danger => strContains m danger

/-- The `for node in ast.walk(tree)` loop of `validate_code`: first
offending import wins; non-import nodes are skipped. -/
def validateNodes (denylist : List String) : List PyNode → Bool × Option String
  | [] => (true, none)
  | PyNode.imp names :: rest =>
      match names.find? (fun nm => moduleBad denylist nm) with
      | some nm => (false, some ("Forbidden import: " ++ nm))
      | none => validateNodes denylist rest
  | PyNode.impFrom (some m) _ :: rest =>
      if moduleBad denylist m then (false, some ("Forbidden import: " ++ m))
      else validateNodes denylist rest
  | PyNode.impFrom none _ :: rest => validateNodes denylist rest
  | PyNode.nameRef _ :: rest => validateNodes denylist rest
  | PyNode.other :: rest => validateNodes denylist rest

/-- `CodeExecutor.validate_code`, applied to the outcome of `ast.parse` on
the input text. -/
def CodeExecutor.validate_code (ex : CodeExecutor) (parsed : ParseResult) :
    Bool × Option String :=
  match parsed with
  | ParseResult.syntaxError msg => (false, some ("Syntax error: " ++ msg))
  | ParseResult.ok nodes => validateNodes ex.dangerous_imports nodes

/-- The result dictionary `execute` returns. -/
structure ExecResult where
  success : Bool
  stdout : String
  stderr : String
  exit_code : Int
deriving DecidableEq, Repr

/-- Observable events of one `execute` call. `unlinkAttempted` records that
the `finally` block ran `os.unlink`; `tempFileRemoved` is whether the file
is actually gone afterwards (the unlink may fail and be swallowed). -/
structure ExecTrace where
  tempFileCreated : Bool
  processSpawned : Bool
  processKilled : Bool
  processWaited : Bool
  unlinkAttempted : Bool
  tempFileRemoved : Bool
deriving DecidableEq, Repr

/-- The trace of a call that touched nothing. -/
def noEvents : ExecTrace :=
  { tempFileCreated := false, processSpawned := false, processKilled := false,
    processWaited := false, unlinkAttempted := false, tempFileRemoved := false }

/-- What the world does when `execute` reaches
`asyncio.create_subprocess_exec`: the spawn raises an exception (described
by a string), or yields a process that either completes within the timeout
with the given streams and return code, or is still running when
`asyncio.wait_for` hits the deadline (having produced the given partial
streams so far). -/
inductive CompletionOutcome where
  | completes (out err : String) (returncode : Int)
  | timesOut (partialOut partialErr : String)
deriving DecidableEq, Repr

inductive SpawnOutcome where
  | raises (e : String)
  | proc (c : CompletionOutcome)
deriving DecidableEq, Repr

/-- `CodeExecutor.execute`, as a function of the parse outcome of the input,
the spawn outcome, and whether the cleanup `os.unlink` fails.  The first
component is the returned dictionary, or `Except.error e` when the Python
exception `e` escapes `execute`; the second is the event trace. -/
def CodeExecutor.execute (ex : CodeExecutor) (parsed : ParseResult)
    (spawn : SpawnOutcome) (unlinkFails : Bool) :
    Except String ExecResult × ExecTrace :=
  match ex.validate_code parsed with
  | (false, error) =>
      (Except.ok { success := false, stdout := "", stderr := error.getD "",
                   exit_code := 1 },
       noEvents)
  | (true, _) =>
      match spawn with
      | SpawnOutcome.raises e =>
          (Except.error e,
           { tempFileCreated := true, processSpawned := false,
             processKilled := false, processWaited := false,
             unlinkAttempted := true, tempFileRemoved := !unlinkFails })
      | SpawnOutcome.proc (CompletionOutcome.completes out err rc) =>
          (Except.ok { success := decide (rc = 0), stdout := out, stderr := err,
                       exit_code := rc },
           { tempFileCreated := true, processSpawned := true,
             processKilled := false, processWaited := true,
             unlinkAttempted := true, tempFileRemoved := !unlinkFails })
      | SpawnOutcome.proc (CompletionOutcome.timesOut _ _) =>
          (Except.ok { success := false, stdout := "",
                       stderr := "Execution timeout after " ++ toString ex.timeout
                         ++ " seconds",
                       exit_code := -1 },
           { tempFileCreated := true, processSpawned := true,
             processKilled := true, processWaited := true,
             unlinkAttempted := true, tempFileRemoved := !unlinkFails })

/-! ## Spec-level characterization of a rejected import -/

/-- A module name contains one of the fixed denylist tokens as a contiguous
substring. -/
def TokenSubstr (m : String) : Prop :=
  ∃ d ∈ fixedDenylist, ∃ pre post, m.data = pre ++ d.data ++ post

/-- The node is an import statement whose module name matches the denylist:
a direct import with some alias name matching, or a from-import whose module
part matches. -/
def nodeBadImport (n : PyNode) : Prop :=
  match n with
  | PyNode.imp names => ∃ nm ∈ names, TokenSubstr nm
  | PyNode.impFrom (some m) _ => TokenSubstr m
  | _ => False

/-- Python source that contains an `ast.Name` reference to a name on the
fixed denylist (e.g. a call to `eval`). -/
def referencesDenylisted (nodes : List PyNode) : Bool :=
  nodes.any fun n =>
    match n with
    | PyNode.nameRef id => fixedDenylist.contains id
    | _ => false

/-! ## Helper lemmas about the validator -/

/-- `validate_code` either accepts with no reason or rejects with a reason. -/
theorem validateNodes_shape (D : List String) (nodes : List PyNode) :
    validateNodes D nodes = (true, none) ∨
      ∃ s, validateNodes D nodes = (false, some s) := by
  induction nodes with
  | nil => left; rfl
  | cons n rest ih =>
    cases n with
    | imp names =>
      cases hf : names.find? (fun nm => moduleBad D nm) with
      | none => simpa [validateNodes, hf] using ih
      | some nm => right; exact ⟨"Forbidden import: " ++ nm, by simp [validateNodes, hf]⟩
    | impFrom m ns =>
      cases m with
      | none => simpa [validateNodes] using ih
      | some mod =>
        by_cases hb : moduleBad D mod = true
        · right; exact ⟨"Forbidden import: " ++ mod, by simp [validateNodes, hb]⟩
        · simpa [validateNodes, hb] using ih
    | nameRef id => simpa [validateNodes] using ih
    | other => simpa [validateNodes] using ih

theorem validate_code_shape (ex : CodeExecutor) (parsed : ParseResult) :
    ex.validate_code parsed = (true, none) ∨
      ∃ s, ex.validate_code parsed = (false, some s) := by
  cases parsed with
  | syntaxError msg => right; exact ⟨"Syntax error: " ++ msg, rfl⟩
  | ok nodes => exact validateNodes_shape ex.dangerous_imports nodes

/-! ## Substring containment: `strContains` matches the mathematical
"occurs as a contiguous substring". -/

theorem startsWith_iff (pat l : List Char) :
    startsWith l pat = true ↔ ∃ post, l = pat ++ post := by
  induction pat generalizing l with
  | nil => simp [startsWith]
  | cons b bs ih =>
    cases l with
    | nil => simp [startsWith]
    | cons a as =>
      simp only [startsWith, Bool.and_eq_true, decide_eq_true_eq, ih,
        List.cons_append, List.cons.injEq]
      constructor
      · rintro ⟨hab, post, hpost⟩; exact ⟨post, hab, hpost⟩
      · rintro ⟨post, hab, hpost⟩; exact ⟨hab, post, hpost⟩

theorem hasSubstr_iff (l pat : List Char) :
    hasSubstr l pat = true ↔ ∃ pre post, l = pre ++ pat ++ post := by
  induction l with
  | nil =>
    simp only [hasSubstr, List.isEmpty_iff]
    constructor
    · rintro rfl; exact ⟨[], [], rfl⟩
    · rintro ⟨pre, post, h⟩
      rcases List.append_eq_nil.mp (List.append_eq_nil.mp h.symm).1 with ⟨-, h2⟩
      exact h2
  | cons c rest ih =>
    simp only [hasSubstr, Bool.or_eq_true, startsWith_iff, ih]
    constructor
    · rintro (⟨post, hpost⟩ | ⟨pre, post, hpp⟩)
      · exact ⟨[], post, by simpa using hpost⟩
      · exact ⟨c :: pre, post, by simp [hpp]⟩
    · rintro ⟨pre, post, hpp⟩
      cases pre with
      | nil => exact Or.inl ⟨post, by simpa using hpp⟩
      | cons p ps =>
        simp only [List.cons_append, List.cons.injEq, List.append_assoc] at hpp
        exact Or.inr ⟨ps, post, by simp [hpp.2]⟩

theorem strContains_iff (s pat : String) :
    strContains s pat = true ↔ ∃ pre post, s.data = pre ++ pat.data ++ post :=
  hasSubstr_iff s.data pat.data

theorem moduleBad_iff (m : String) :
    moduleBad fixedDenylist m = true ↔ TokenSubstr m := by
  simp only [moduleBad, List.any_eq_true, strContains_iff, TokenSubstr]

theorem validateNodes_false_iff (nodes : List PyNode) :
    (validateNodes fixedDenylist nodes).1 = false ↔ ∃ n ∈ nodes, nodeBadImport n := by
  induction nodes with
  | nil => simp [validateNodes]
  | cons n rest ih =>
    cases n with
    | imp names =>
      cases hf : names.find? (fun nm => moduleBad fixedDenylist nm) with
      | none =>
        have hno : ∀ nm ∈ names, ¬TokenSubstr nm := by
          intro nm hnm ht
          have := List.find?_eq_none.mp hf nm hnm
          exact this ((moduleBad_iff nm).mpr ht)
        have hred : validateNodes fixedDenylist (PyNode.imp names :: rest) =
            validateNodes fixedDenylist rest := by
          simp [validateNodes, hf]
        rw [hred, ih]
        constructor
        · rintro ⟨x, hx, hbad⟩; exact ⟨x, List.mem_cons_of_mem _ hx, hbad⟩
        · rintro ⟨x, hx, hbad⟩
          rcases List.mem_cons.mp hx with rfl | hx'
          · simp only [nodeBadImport] at hbad
            rcases hbad with ⟨nm, hnm, ht⟩
            exact absurd ht (hno nm hnm)
          · exact ⟨x, hx', hbad⟩
      | some nm =>
        have hmem := List.mem_of_find?_eq_some hf
        have hbad : moduleBad fixedDenylist nm = true := by
          simpa using List.find?_some hf
        have hL : (validateNodes fixedDenylist (PyNode.imp names :: rest)).1 = false := by
          simp [validateNodes, hf]
        exact iff_of_true hL
          ⟨PyNode.imp names, List.mem_cons_self _ _,
            ⟨nm, hmem, (moduleBad_iff nm).mp hbad⟩⟩
    | impFrom m ns =>
      cases m with
      | none =>
        have hred : validateNodes fixedDenylist (PyNode.impFrom none ns :: rest) =
            validateNodes fixedDenylist rest := by
          simp [validateNodes]
        rw [hred, ih]
        constructor
        · rintro ⟨x, hx, hbad⟩; exact ⟨x, List.mem_cons_of_mem _ hx, hbad⟩
        · rintro ⟨x, hx, hbad⟩
          rcases List.mem_cons.mp hx with rfl | hx'
          · simp only [nodeBadImport] at hbad
          · exact ⟨x, hx', hbad⟩
      | some mod =>
        cases hb : moduleBad fixedDenylist mod with
        | true =>
          have hL : (validateNodes fixedDenylist
              (PyNode.impFrom (some mod) ns :: rest)).1 = false := by
            simp [validateNodes, hb]
          exact iff_of_true hL
            ⟨PyNode.impFrom (some mod) ns, List.mem_cons_self _ _,
              (moduleBad_iff mod).mp hb⟩
        | false =>
          have hred : validateNodes fixedDenylist
              (PyNode.impFrom (some mod) ns :: rest) =
              validateNodes fixedDenylist rest := by
            simp [validateNodes, hb]
          rw [hred, ih]
          constructor
          · rintro ⟨x, hx, hbad⟩; exact ⟨x, List.mem_cons_of_mem _ hx, hbad⟩
          · rintro ⟨x, hx, hbad⟩
            rcases List.mem_cons.mp hx with rfl | hx'
            · simp only [nodeBadImport] at hbad
              exact absurd ((moduleBad_iff mod).mpr hbad) (by simp [hb])
            · exact ⟨x, hx', hbad⟩
    | nameRef id =>
      have hred : validateNodes fixedDenylist (PyNode.nameRef id :: rest) =
          validateNodes fixedDenylist rest := by
        simp [validateNodes]
      rw [hred, ih]
      constructor
      · rintro ⟨x, hx, hbad⟩; exact ⟨x, List.mem_cons_of_mem _ hx, hbad⟩
      · rintro ⟨x, hx, hbad⟩
        rcases List.mem_cons.mp hx with rfl | hx'
        · simp only [nodeBadImport] at hbad
        · exact ⟨x, hx', hbad⟩
    | other =>
      have hred : validateNodes fixedDenylist (PyNode.other :: rest) =
          validateNodes fixedDenylist rest := by
        simp [validateNodes]
      rw [hred, ih]
      constructor
      · rintro ⟨x, hx, hbad⟩; exact ⟨x, List.mem_cons_of_mem _ hx, hbad⟩
      · rintro ⟨x, hx, hbad⟩
        rcases List.mem_cons.mp hx with rfl | hx'
        · simp only [nodeBadImport] at hbad
        · exact ⟨x, hx', hbad⟩

theorem validateNodes_clean (nodes : List PyNode)
    (h : ¬ ∃ n ∈ nodes, nodeBadImport n) :
    validateNodes fixedDenylist nodes = (true, none) := by
  rcases validateNodes_shape fixedDenylist nodes with hok | ⟨s, hs⟩
  · exact hok
  · exact absurd ((validateNodes_false_iff nodes).mp (by simp [hs])) h

/-! ## Path lemmas for `execute` -/

theorem execute_reject_eq (ex : CodeExecutor) (parsed : ParseResult)
    (spawn : SpawnOutcome) (unlinkFails : Bool) (s : String)
    (hs : ex.validate_code parsed = (false, some s)) :
    ex.execute parsed spawn unlinkFails =
      (Except.ok { success := false, stdout := "", stderr := s, exit_code := 1 },
       noEvents) := by
  unfold CodeExecutor.execute
  rw [hs]
  rfl

theorem execute_accept_raises_eq (ex : CodeExecutor) (parsed : ParseResult)
    (e : String) (unlinkFails : Bool)
    (hok : ex.validate_code parsed = (true, none)) :
    ex.execute parsed (SpawnOutcome.raises e) unlinkFails =
      (Except.error e,
       { tempFileCreated := true, processSpawned := false, processKilled := false,
         processWaited := false, unlinkAttempted := true,
         tempFileRemoved := !unlinkFails }) := by
  unfold CodeExecutor.execute
  rw [hok]

theorem execute_accept_completes_eq (ex : CodeExecutor) (parsed : ParseResult)
    (out err : String) (rc : Int) (unlinkFails : Bool)
    (hok : ex.validate_code parsed = (true, none)) :
    ex.execute parsed (SpawnOutcome.proc (CompletionOutcome.completes out err rc))
        unlinkFails =
      (Except.ok { success := decide (rc = 0), stdout := out, stderr := err,
                   exit_code := rc },
       { tempFileCreated := true, processSpawned := true, processKilled := false,
         processWaited := true, unlinkAttempted := true,
         tempFileRemoved := !unlinkFails }) := by
  unfold CodeExecutor.execute
  rw [hok]

theorem execute_accept_timesOut_eq (ex : CodeExecutor) (parsed : ParseResult)
    (pOut pErr : String) (unlinkFails : Bool)
    (hok : ex.validate_code parsed = (true, none)) :
    ex.execute parsed (SpawnOutcome.proc (CompletionOutcome.timesOut pOut pErr))
        unlinkFails =
      (Except.ok { success := false, stdout := "",
                   stderr := "Execution timeout after " ++ toString ex.timeout
                     ++ " seconds",
                   exit_code := -1 },
       { tempFileCreated := true, processSpawned := true, processKilled := true,
         processWaited := true, unlinkAttempted := true,
         tempFileRemoved := !unlinkFails }) := by
  unfold CodeExecutor.execute
  rw [hok]

theorem validate_accept_of_fst_true (ex : CodeExecutor) (parsed : ParseResult)
    (h : (ex.validate_code parsed).1 = true) :
    ex.validate_code parsed = (true, none) := by
  rcases validate_code_shape ex parsed with hok | ⟨s, hs⟩
  · exact hok
  · rw [hs] at h; simp at h

/-! ## Claim theorems -/

/-- Claim C1: for every input that fails validation, `execute` returns
`{succeeded := false, stdout := "", stderr := <validator reason>,
exitStatus := 1}`, and the call spawns no child process and creates no
temporary file. -/
theorem C1_reject_is_pure_result (ex : CodeExecutor) (parsed : ParseResult)
    (spawn : SpawnOutcome) (unlinkFails : Bool)
    (h : (ex.validate_code parsed).1 = false) :
    ∃ r, ex.validate_code parsed = (false, some r) ∧
      ex.execute parsed spawn unlinkFails =
        (Except.ok { success := false, stdout := "", stderr := r, exit_code := 1 },
         noEvents) := by
  rcases validate_code_shape ex parsed with hok | ⟨s, hs⟩
  · rw [hok] at h; simp at h
  · exact ⟨s, hs, execute_reject_eq ex parsed spawn unlinkFails s hs⟩

/-- Witness for C1 at the concrete rejected input `parse` fails on. -/
theorem C1_reject_is_pure_result_witness :
    ∃ r, (CodeExecutor.init 30).validate_code (ParseResult.syntaxError "bad token") =
        (false, some r) ∧
      (CodeExecutor.init 30).execute (ParseResult.syntaxError "bad token")
          (SpawnOutcome.proc (CompletionOutcome.completes "x" "" 0)) false =
        (Except.ok { success := false, stdout := "", stderr := r, exit_code := 1 },
         noEvents) :=
  C1_reject_is_pure_result (CodeExecutor.init 30) (ParseResult.syntaxError "bad token")
    (SpawnOutcome.proc (CompletionOutcome.completes "x" "" 0)) false rfl

/-- Claim C8: an input that fails to parse is rejected with reason
`"Syntax error: <parser message>"`. -/
theorem C8_syntax_error_reason (ex : CodeExecutor) (msg : String) :
    ex.validate_code (ParseResult.syntaxError msg) =
      (false, some ("Syntax error: " ++ msg)) := rfl

/-- Claim C9: the verdict of `validate_code` is a function of the parsed
input text and the denylist alone — two executors with the same denylist
(whatever their timeouts or other state) return identical verdicts on the
same input, and the embedding is effect-free. -/
theorem C9_validate_pure (ex ex' : CodeExecutor) (parsed : ParseResult)
    (h : ex.dangerous_imports = ex'.dangerous_imports) :
    ex.validate_code parsed = ex'.validate_code parsed := by
  cases parsed with
  | syntaxError msg => rfl
  | ok nodes => simp only [CodeExecutor.validate_code, h]

/-- Witness for C9: two executors with different timeouts agree. -/
theorem C9_validate_pure_witness :
    (CodeExecutor.init 1).validate_code (ParseResult.ok [PyNode.imp ["json"]]) =
      (CodeExecutor.init 99).validate_code (ParseResult.ok [PyNode.imp ["json"]]) :=
  C9_validate_pure (CodeExecutor.init 1) (CodeExecutor.init 99)
    (ParseResult.ok [PyNode.imp ["json"]]) rfl

/-- Claim C10: a from-import is checked only on its module part — the
imported names never influence the verdict — and a relative from-import
with no module (`from . import subprocess`) is not checked at all. -/
theorem C10_fromImport_module_only (ex : CodeExecutor) (m : Option String)
    (ns ns' : List String) (rest : List PyNode) :
    ex.validate_code (ParseResult.ok (PyNode.impFrom m ns :: rest)) =
      ex.validate_code (ParseResult.ok (PyNode.impFrom m ns' :: rest)) ∧
    ex.validate_code (ParseResult.ok (PyNode.impFrom none ns :: rest)) =
      ex.validate_code (ParseResult.ok rest) ∧
    (CodeExecutor.init 30).validate_code
        (ParseResult.ok [PyNode.impFrom none ["subprocess"]]) = (true, none) := by
  refine ⟨?_, rfl, rfl⟩
  cases m with
  | none => rfl
  | some mod => rfl

/-- Claim C7 counterexample: a source whose only denylisted occurrence is a
name reference (a call to `eval`, no import) is accepted by `validate_code`,
so the validator does not reject references, only imports. -/
theorem C7_counterexample_nameRef_accepted :
    referencesDenylisted [PyNode.nameRef "eval"] = true ∧
    (CodeExecutor.init 30).validate_code (ParseResult.ok [PyNode.nameRef "eval"]) =
      (true, none) := by
  exact ⟨rfl, rfl⟩

/-- Claim C7 (amended): the validator rejects on imports only; any
non-import node — in particular a name reference to a denylisted name —
never influences the verdict. -/
theorem C7_amended_only_imports_checked (ex : CodeExecutor) (id : String)
    (rest : List PyNode) :
    ex.validate_code (ParseResult.ok (PyNode.nameRef id :: rest)) =
      ex.validate_code (ParseResult.ok rest) ∧
    ex.validate_code (ParseResult.ok (PyNode.other :: rest)) =
      ex.validate_code (ParseResult.ok rest) := ⟨rfl, rfl⟩

/-- Claim C5 counterexample: when the spawn primitive raises (e.g. the
interpreter executable is missing), `execute` does not return a structured
result — the exception escapes to the caller. -/
theorem C5_counterexample_spawn_raises :
    ((CodeExecutor.init 30).execute (ParseResult.ok [])
        (SpawnOutcome.raises "FileNotFoundError") false).1 =
      Except.error "FileNotFoundError" := rfl

/-- Claim C5 (amended): if process creation raises, the exception propagates
past `execute` to the caller (no `ExecutionResult` is produced); the
`finally` block still removes the temporary file first. -/
theorem C5_amended_spawn_exception_propagates (ex : CodeExecutor)
    (parsed : ParseResult) (e : String) (unlinkFails : Bool)
    (h : (ex.validate_code parsed).1 = true) :
    ex.execute parsed (SpawnOutcome.raises e) unlinkFails =
      (Except.error e,
       { tempFileCreated := true, processSpawned := false, processKilled := false,
         processWaited := false, unlinkAttempted := true,
         tempFileRemoved := !unlinkFails }) :=
  execute_accept_raises_eq ex parsed e unlinkFails
    (validate_accept_of_fst_true ex parsed h)

/-- Witness for the amended C5 at a concrete accepted input. -/
theorem C5_amended_spawn_exception_propagates_witness :
    (CodeExecutor.init 30).execute (ParseResult.ok [PyNode.imp ["json"]])
        (SpawnOutcome.raises "PermissionError") false =
      (Except.error "PermissionError",
       { tempFileCreated := true, processSpawned := false, processKilled := false,
         processWaited := false, unlinkAttempted := true,
         tempFileRemoved := true }) :=
  C5_amended_spawn_exception_propagates (CodeExecutor.init 30)
    (ParseResult.ok [PyNode.imp ["json"]]) "PermissionError" false (by decide)

/-- Claim C3: when the deadline elapses before the child completes, `execute`
kills the child, waits for it to be reaped, and returns
`{succeeded := false, stdout := "", stderr := "Execution timeout after <N>
seconds", exitStatus := -1}`, discarding any partial captured output. -/
theorem C3_timeout_kills_and_discards (ex : CodeExecutor) (parsed : ParseResult)
    (pOut pErr : String) (unlinkFails : Bool)
    (h : (ex.validate_code parsed).1 = true) :
    ex.execute parsed (SpawnOutcome.proc (CompletionOutcome.timesOut pOut pErr))
        unlinkFails =
      (Except.ok { success := false, stdout := "",
                   stderr := "Execution timeout after " ++ toString ex.timeout
                     ++ " seconds",
                   exit_code := -1 },
       { tempFileCreated := true, processSpawned := true, processKilled := true,
         processWaited := true, unlinkAttempted := true,
         tempFileRemoved := !unlinkFails }) :=
  execute_accept_timesOut_eq ex parsed pOut pErr unlinkFails
    (validate_accept_of_fst_true ex parsed h)

/-- Witness for C3: a five-second executor, a process with nonempty partial
output at kill time. -/
theorem C3_timeout_kills_and_discards_witness :
    (CodeExecutor.init 5).execute (ParseResult.ok [])
        (SpawnOutcome.proc (CompletionOutcome.timesOut "partial out" "partial err"))
        false =
      (Except.ok { success := false, stdout := "",
                   stderr := "Execution timeout after 5 seconds",
                   exit_code := -1 },
       { tempFileCreated := true, processSpawned := true, processKilled := true,
         processWaited := true, unlinkAttempted := true,
         tempFileRemoved := true }) := by
  have h := C3_timeout_kills_and_discards (CodeExecutor.init 5) (ParseResult.ok [])
    "partial out" "partial err" false rfl
  simpa using h

/-- Claim C4: in every `ExecutionResult` that `execute` returns — rejection,
normal completion, or timeout — the success flag is true exactly when the
exit status is zero. -/
theorem C4_success_iff_exit_zero (ex : CodeExecutor) (parsed : ParseResult)
    (spawn : SpawnOutcome) (unlinkFails : Bool) (r : ExecResult)
    (h : (ex.execute parsed spawn unlinkFails).1 = Except.ok r) :
    r.success = true ↔ r.exit_code = 0 := by
  rcases validate_code_shape ex parsed with hok | ⟨s, hs⟩
  · cases spawn with
    | raises e =>
      rw [execute_accept_raises_eq ex parsed e unlinkFails hok] at h
      simp at h
    | proc c =>
      cases c with
      | completes out err rc =>
        rw [execute_accept_completes_eq ex parsed out err rc unlinkFails hok] at h
        simp only [Except.ok.injEq] at h
        rw [← h]
        simp
      | timesOut pOut pErr =>
        rw [execute_accept_timesOut_eq ex parsed pOut pErr unlinkFails hok] at h
        simp only [Except.ok.injEq] at h
        rw [← h]
        simp
  · rw [execute_reject_eq ex parsed spawn unlinkFails s hs] at h
    simp only [Except.ok.injEq] at h
    rw [← h]
    simp

/-- Witness for C4 at a concrete zero-exit completion. -/
theorem C4_success_iff_exit_zero_witness :
    (({ success := true, stdout := "hi", stderr := "", exit_code := 0 } :
        ExecResult).success = true ↔
      ({ success := true, stdout := "hi", stderr := "", exit_code := 0 } :
        ExecResult).exit_code = 0) :=
  C4_success_iff_exit_zero (CodeExecutor.init 30) (ParseResult.ok [])
    (SpawnOutcome.proc (CompletionOutcome.completes "hi" "" 0)) false
    { success := true, stdout := "hi", stderr := "", exit_code := 0 } rfl

/-- Claim C6: whenever validation passes (so a temporary file is created),
the cleanup unlink runs on every exit path — normal completion, timeout,
or an exception while spawning — the file is gone when the unlink succeeds,
and a failing unlink never changes the returned outcome. -/
theorem C6_cleanup_on_every_path (ex : CodeExecutor) (parsed : ParseResult)
    (spawn : SpawnOutcome) (unlinkFails : Bool)
    (h : (ex.validate_code parsed).1 = true) :
    (ex.execute parsed spawn unlinkFails).2.tempFileCreated = true ∧
    (ex.execute parsed spawn unlinkFails).2.unlinkAttempted = true ∧
    (ex.execute parsed spawn false).2.tempFileRemoved = true ∧
    (ex.execute parsed spawn unlinkFails).1 = (ex.execute parsed spawn false).1 := by
  have hok := validate_accept_of_fst_true ex parsed h
  cases spawn with
  | raises e =>
    rw [execute_accept_raises_eq ex parsed e unlinkFails hok,
        execute_accept_raises_eq ex parsed e false hok]
    exact ⟨rfl, rfl, rfl, rfl⟩
  | proc c =>
    cases c with
    | completes out err rc =>
      rw [execute_accept_completes_eq ex parsed out err rc unlinkFails hok,
          execute_accept_completes_eq ex parsed out err rc false hok]
      exact ⟨rfl, rfl, rfl, rfl⟩
    | timesOut pOut pErr =>
      rw [execute_accept_timesOut_eq ex parsed pOut pErr unlinkFails hok,
          execute_accept_timesOut_eq ex parsed pOut pErr false hok]
      exact ⟨rfl, rfl, rfl, rfl⟩

/-- Witness for C6: concrete normal completion with a failing unlink. -/
theorem C6_cleanup_on_every_path_witness :
    ((CodeExecutor.init 30).execute (ParseResult.ok [PyNode.imp ["json"]])
        (SpawnOutcome.proc (CompletionOutcome.completes "out" "" 0)) true).2.tempFileCreated
        = true ∧
    ((CodeExecutor.init 30).execute (ParseResult.ok [PyNode.imp ["json"]])
        (SpawnOutcome.proc (CompletionOutcome.completes "out" "" 0)) true).2.unlinkAttempted
        = true ∧
    ((CodeExecutor.init 30).execute (ParseResult.ok [PyNode.imp ["json"]])
        (SpawnOutcome.proc (CompletionOutcome.completes "out" "" 0)) false).2.tempFileRemoved
        = true ∧
    ((CodeExecutor.init 30).execute (ParseResult.ok [PyNode.imp ["json"]])
        (SpawnOutcome.proc (CompletionOutcome.completes "out" "" 0)) true).1 =
      ((CodeExecutor.init 30).execute (ParseResult.ok [PyNode.imp ["json"]])
        (SpawnOutcome.proc (CompletionOutcome.completes "out" "" 0)) false).1 :=
  C6_cleanup_on_every_path (CodeExecutor.init 30) (ParseResult.ok [PyNode.imp ["json"]])
    (SpawnOutcome.proc (CompletionOutcome.completes "out" "" 0)) true (by decide)

/-- Claim C2: on a successful parse, `validate_code` rejects exactly when
some import statement's module name — a direct import's alias name or a
from-import's module — contains a fixed denylist token as a contiguous
substring, and otherwise accepts with a null reason. -/
theorem C2_reject_iff_denylist_substring (t : Nat) (nodes : List PyNode) :
    (((CodeExecutor.init t).validate_code (ParseResult.ok nodes)).1 = false ↔
      ∃ n ∈ nodes, nodeBadImport n) ∧
    ((¬ ∃ n ∈ nodes, nodeBadImport n) →
      (CodeExecutor.init t).validate_code (ParseResult.ok nodes) = (true, none)) :=
  ⟨validateNodes_false_iff nodes, validateNodes_clean nodes⟩

/-- Witness for C2 at the spec's concrete examples: `import os`,
`from os.path import join` and `import osprey` are rejected; `import math`
is accepted with a null reason. -/
theorem C2_reject_iff_denylist_substring_witness :
    ((CodeExecutor.init 30).validate_code (ParseResult.ok [PyNode.imp ["os"]])).1
      = false ∧
    ((CodeExecutor.init 30).validate_code
        (ParseResult.ok [PyNode.impFrom (some "os.path") ["join"]])).1 = false ∧
    ((CodeExecutor.init 30).validate_code (ParseResult.ok [PyNode.imp ["osprey"]])).1
      = false ∧
    (CodeExecutor.init 30).validate_code (ParseResult.ok [PyNode.imp ["math"]]) =
      (true, none) := by
  refine ⟨?_, ?_, ?_, ?_⟩
  · exact (C2_reject_iff_denylist_substring 30 [PyNode.imp ["os"]]).1.mpr
      ⟨PyNode.imp ["os"], List.mem_cons_self _ _,
        "os", List.mem_cons_self _ _, "os", by decide, [], [], by decide⟩
  · exact (C2_reject_iff_denylist_substring 30
        [PyNode.impFrom (some "os.path") ["join"]]).1.mpr
      ⟨PyNode.impFrom (some "os.path") ["join"], List.mem_cons_self _ _,
        "os", by decide, [], ".path".data, by decide⟩
  · exact (C2_reject_iff_denylist_substring 30 [PyNode.imp ["osprey"]]).1.mpr
      ⟨PyNode.imp ["osprey"], List.mem_cons_self _ _,
        "osprey", List.mem_cons_self _ _, "os", by decide, [], "prey".data, by decide⟩
  · refine (C2_reject_iff_denylist_substring 30 [PyNode.imp ["math"]]).2 ?_
    rintro ⟨n, hn, hbad⟩
    have hn' : n = PyNode.imp ["math"] := List.mem_singleton.mp hn
    subst hn'
    simp only [nodeBadImport] at hbad
    rcases hbad with ⟨nm, hnm, ht⟩
    have hb : moduleBad fixedDenylist nm = true := (moduleBad_iff nm).mpr ht
    have hnm' : nm = "math" := List.mem_singleton.mp hnm
    rw [hnm'] at hb
    exact absurd hb (by decide)
